import Mathlib

/-!
Verification development for the wenpm-bucket manifest generator and validator
(`scripts/generate_manifest.py` and `scripts/validate_manifest.py`).

The Python code is shallowly embedded: the platform classifier's `re.search`
patterns are represented by a small executable regular-expression engine, the
selector / builder loops become explicit recursions over lists, and the
validator's mutable `errors` / `warnings` lists become explicit state passing.
-/

namespace WenpmBucket

/-! ### A small regular-expression engine

Executable model of the subset of Python `re` used by the pattern tables of
`PlatformDetector`: literal characters, `.` (any character except a newline),
`.*`, alternation, non-capturing groups, `X?`, character classes such as
`[_.-]`, and a leading `^` inside `(?:^|[_-])`.  Matching is by Brzozowski
derivatives; `searchRE` has Python `re.search` semantics (the pattern may
match starting at any offset, `bos` only matches at offset 0).
-/

inductive RE : Type where
  | emp : RE
  | eps : RE
  | bos : RE
  | chr : Char → RE
  | anychar : RE
  | cls : List Char → RE
  | cat : RE → RE → RE
  | alt : RE → RE → RE
  | star : RE → RE
  | opt : RE → RE
deriving DecidableEq

def nullable : RE → Bool
  | .emp => false
  | .eps => true
  | .bos => false
  | .chr _ => false
  | .anychar => false
  | .cls _ => false
  | .cat r1 r2 => nullable r1 && nullable r2
  | .alt r1 r2 => nullable r1 || nullable r2
  | .star _ => true
  | .opt _ => true

/-- Smart concatenation constructor (keeps derivatives small). -/
def mkCat : RE → RE → RE
  | .emp, _ => .emp
  | .eps, r => r
  | r1, r2 => .cat r1 r2

/-- Smart alternation constructor (keeps derivatives small). -/
def mkAlt : RE → RE → RE
  | .emp, r => r
  | r1, .emp => r1
  | r1, r2 => .alt r1 r2

def rderiv : RE → Char → RE
  | .emp, _ => .emp
  | .eps, _ => .emp
  | .bos, _ => .emp
  | .chr c, a => if a = c then .eps else .emp
  | .anychar, a => if a = '\n' then .emp else .eps
  | .cls cs, a => if cs.contains a then .eps else .emp
  | .cat r1 r2, a =>
      if nullable r1 then mkAlt (mkCat (rderiv r1 a) r2) (rderiv r2 a)
      else mkCat (rderiv r1 a) r2
  | .alt r1 r2, a => mkAlt (rderiv r1 a) (rderiv r2 a)
  | .star r, a => mkCat (rderiv r a) (.star r)
  | .opt r, a => rderiv r a

/-- Does `r` match some (possibly empty) prefix of `l`? -/
def matchHere : RE → List Char → Bool
  | r, [] => nullable r
  | r, c :: rest => nullable r || matchHere (rderiv r c) rest

/-- Replace `bos` by `eps` (at offset 0) or `emp` (at later offsets).  In the
source tables `bos` only occurs at the head of a pattern, where this
replacement is exact. -/
def resolveBos : RE → Bool → RE
  | .bos, atStart => if atStart then .eps else .emp
  | .cat r1 r2, b => .cat (resolveBos r1 b) (resolveBos r2 b)
  | .alt r1 r2, b => .alt (resolveBos r1 b) (resolveBos r2 b)
  | .star r, b => .star (resolveBos r b)
  | .opt r, b => .opt (resolveBos r b)
  | r, _ => r

def searchTail (r : RE) : List Char → Bool
  | [] => false
  | _ :: rest => matchHere (resolveBos r false) rest || searchTail r rest

/-- Python `re.search(pattern, s)` truthiness: the pattern matches at some
offset of `l`. -/
def searchRE (r : RE) (l : List Char) : Bool :=
  matchHere (resolveBos r true) l || searchTail r l

/-! Helpers to transcribe the Python pattern strings. -/

def rCatL : List RE → RE
  | [] => .eps
  | [r] => r
  | r :: rest => .cat r (rCatL rest)

def rAltL : List RE → RE
  | [] => .emp
  | [r] => r
  | r :: rest => .alt r (rAltL rest)

def rStr (s : String) : RE := rCatL (s.data.map RE.chr)

/-- The pattern fragment `a.*b`. -/
def rThen (a b : String) : RE := .cat (rStr a) (.cat (.star .anychar) (rStr b))

/-! ### `PlatformDetector` (generate_manifest.py lines 112-224) -/

/-- `PlatformDetector.PATTERNS`: the ordered exact-match table, transcribed
pattern for pattern from the source (dict insertion order preserved). -/
def patternsTable : List (String × List RE) :=
  [ ("windows-x86_64",
      [ rAltL [rThen "windows" "x86_64", rThen "x86_64" "windows", rStr "win64",
               rThen "windows" "amd64", rThen "x64" "windows"],
        rStr "pc-windows-msvc" ]),
    ("windows-i686",
      [ rAltL [rThen "windows" "i686", rThen "i686" "windows", rStr "win32"],
        rThen "pc-windows-msvc" "i686" ]),
    ("linux-x86_64",
      [ rAltL [rThen "linux" "x86_64", rThen "x86_64" "linux", rThen "linux" "amd64"],
        rThen "x86_64" "unknown-linux-gnu",
        rThen "x86_64" "unknown-linux-musl" ]),
    ("linux-aarch64",
      [ rAltL [rThen "linux" "aarch64", rThen "aarch64" "linux", rThen "linux" "arm64"],
        rThen "aarch64" "unknown-linux-musl",
        rThen "aarch64" "unknown-linux-gnu" ]),
    ("linux-armv7",
      [ rAltL [rThen "linux" "armv7", rThen "armv7" "linux", rThen "linux" "arm7"],
        rThen "armv7" "unknown-linux-musleabihf",
        rThen "armv7" "unknown-linux-gnueabihf" ]),
    ("linux-armv6",
      [ rAltL [rThen "linux" "armv6", rThen "armv6" "linux", rThen "linux" "arm6"],
        rThen "arm" "unknown-linux-musleabihf",
        rThen "arm" "unknown-linux-gnueabihf" ]),
    ("linux-i686",
      [ rAltL [rThen "linux" "i686", rThen "i686" "linux"],
        rThen "i686" "unknown-linux-gnu",
        rThen "i686" "unknown-linux-musl" ]),
    ("freebsd-x86_64",
      [ rAltL [rThen "freebsd" "x86_64", rThen "x86_64" "freebsd", rThen "freebsd" "amd64"],
        rThen "x86_64" "unknown-freebsd" ]),
    ("darwin-x86_64",
      [ rAltL [rThen "darwin" "x86_64", rThen "x86_64" "darwin",
               rThen "macos" "x86_64", rThen "osx" "x86_64"],
        rThen "apple-darwin" "x86_64",
        .cat (.alt (rStr "mac") (rStr "osx"))
          (.cat (rStr "-x86") (rAltL [.cls ['_', '.', '-'], rStr ".tar", rStr ".zip"])) ]),
    ("darwin-aarch64",
      [ rAltL [rThen "darwin" "aarch64", rThen "aarch64" "darwin", rThen "darwin" "arm64",
               rThen "macos" "arm64", rThen "osx" "arm64"],
        rThen "apple-darwin" "aarch64" ]),
    ("macos-x86_64",
      [ rAltL [rThen "macos" "x86_64", rThen "osx" "x86_64"] ]),
    ("macos-aarch64",
      [ rAltL [rThen "macos" "aarch64", rThen "macos" "arm64", rThen "osx" "arm64"] ]) ]

/-- `PlatformDetector.FALLBACK_PATTERNS`: OS-only patterns with assumed
default architectures. -/
def fallbackTable : List (String × List RE) :=
  [ ("windows-x86_64",
      [ .cat (.alt .bos (.cls ['_', '-']))
          (.cat (rStr "win")
            (.cat (.opt (rStr "dows"))
              (rAltL [.cls ['_', '.', '-'], rStr ".tar", rStr ".zip", rStr ".msi", rStr ".exe"]))) ]),
    ("linux-x86_64",
      [ .cat (.alt .bos (.cls ['_', '-']))
          (.cat (rStr "linux") (rAltL [.cls ['_', '.', '-'], rStr ".tar", rStr ".zip"])) ]),
    ("darwin-aarch64",
      [ .cat (.alt .bos (.cls ['_', '-']))
          (.cat (rAltL [rStr "mac", rStr "macos", rStr "osx", rStr "darwin"])
            (rAltL [.cls ['_', '.', '-'], rStr ".tar", rStr ".zip"])) ]) ]

/-- `PlatformDetector.ARCHIVE_EXTENSIONS`. -/
def archiveExtensions : List String :=
  [".tar.gz", ".tgz", ".zip", ".tar.xz", ".tar.bz2", ".exe", ".msi"]

/-- Python `filename.lower()` (the asset names in play are ASCII, where
`Char.toLower` agrees with `str.lower`). -/
def pyLower (s : String) : List Char := s.data.map Char.toLower

/-- The detector's table scan: return the first table key one of whose
patterns matches (`for platform, patterns in table.items(): for pattern in
patterns: if re.search(...): return platform`). -/
def findMatch : List (String × List RE) → List Char → Option String
  | [], _ => none
  | (p, pats) :: rest, l =>
      if pats.any (fun r => searchRE r l) then some p else findMatch rest l

/-- `PlatformDetector.detect_platform`, additionally recording (as the `Bool`
component) whether the result came from the fallback table — the source
surfaces exactly that event with a "Fallback assumption" warning print. -/
def detectPlatformFull (filename : String) : Option (String × Bool) :=
  let l := pyLower filename
  if archiveExtensions.any (fun e => List.isSuffixOf e.data l) then
    match findMatch patternsTable l with
    | some p => some (p, false)
    | none => (findMatch fallbackTable l).map (fun q => (q, true))
  else none

/-- `PlatformDetector.detect_platform` (the returned platform id). -/
def detect_platform (filename : String) : Option String :=
  (detectPlatformFull filename).map Prod.fst

/-- Python `needle in haystack` for strings (substring containment). -/
def hasSubstr (needle : List Char) : List Char → Bool
  | [] => needle.isEmpty
  | c :: rest => List.isPrefixOf needle (c :: rest) || hasSubstr needle rest

/-- `PlatformDetector.get_linux_variant_priority`. -/
def get_linux_variant_priority (filename : String) : Int :=
  let l := pyLower filename
  if hasSubstr "musl".data l then 3
  else if hasSubstr "gnu".data l then 2
  else 1

/-! ### Artifact selection (`ManifestGenerator.fetch_package_info`, lines 353-381)

The per-release loop over `release["assets"]` maintaining the `platforms` and
`platform_priorities` dicts.  Python dicts preserve insertion order and update
values in place; `dictSet`/`dictGet` model exactly that on association lists.
-/

structure Asset : Type where
  name : String
  browser_download_url : String
  size : Int
deriving DecidableEq

/-- The `asset_info` dict `{"url": ..., "size": ...}`. -/
structure AssetInfo : Type where
  url : String
  size : Int
deriving DecidableEq

def assetInfoOf (a : Asset) : AssetInfo :=
  { url := a.browser_download_url, size := a.size }

/-- Python `d[k] = v` on an insertion-ordered dict. -/
def dictSet {A : Type} : List (String × A) → String → A → List (String × A)
  | [], k, v => [(k, v)]
  | (k2, v2) :: rest, k, v =>
      if k2 = k then (k2, v) :: rest else (k2, v2) :: dictSet rest k v

/-- Python `d.get(k)` / `d[k]` on an insertion-ordered dict. -/
def dictGet {A : Type} (k : String) : List (String × A) → Option A
  | [] => none
  | (k2, v) :: rest => if k2 = k then some v else dictGet k rest

/-- `platform.startswith("linux-")`. -/
def isLinuxPlat (p : String) : Bool := List.isPrefixOf "linux-".data p.data

/-- One iteration of the asset loop (lines 358-377): classify the asset, then
either apply the Linux variant-priority rule or unconditionally overwrite. -/
def selectStep (st : List (String × AssetInfo) × List (String × Int)) (a : Asset) :
    List (String × AssetInfo) × List (String × Int) :=
  match detect_platform a.name with
  | none => st
  | some p =>
      let info := assetInfoOf a
      if isLinuxPlat p then
        let cur := get_linux_variant_priority a.name
        let ex := (dictGet p st.2).getD 0
        if cur > ex then (dictSet st.1 p info, dictSet st.2 p cur) else st
      else
        (dictSet st.1 p info, st.2)

def selectLoop (st : List (String × AssetInfo) × List (String × Int)) :
    List Asset → List (String × AssetInfo) × List (String × Int)
  | [] => st
  | a :: rest => selectLoop (selectStep st a) rest

/-- The `platforms` dict produced by the asset loop of `fetch_package_info`. -/
def selectPlatforms (assets : List Asset) : List (String × AssetInfo) :=
  (selectLoop ([], []) assets).1

/-! ### JSON values as Python `json.load` produces them

Constructors follow the JSON values relevant to the manifest (the repository's
manifests carry no floats).  Crucially, Python's `bool` is a subclass of
`int`, so `isinstance(x, int)` is true for booleans — `isIntLike` models that.
-/

inductive Json : Type where
  | null : Json
  | bool : Bool → Json
  | num : Int → Json
  | str : String → Json
  | arr : List Json → Json
  | obj : List (String × Json) → Json

/-- Python dict lookup for JSON objects. -/
def jLookup (k : String) : List (String × Json) → Option Json
  | [] => none
  | (k2, v) :: rest => if k2 = k then some v else jLookup k rest

/-- `isinstance(x, str)`. -/
def isStrJ : Json → Bool
  | .str _ => true
  | _ => false

/-- `isinstance(x, int)` — true for Python bools as well (bool ⊂ int). -/
def isIntLike : Json → Bool
  | .num _ => true
  | .bool _ => true
  | _ => false

/-- The integer value used in comparisons (`True == 1`, `False == 0`). -/
def pyIntVal : Json → Int
  | .num n => n
  | .bool b => if b then 1 else 0
  | _ => 0

/-- Python truthiness of a JSON value. -/
def pyTruthy : Json → Bool
  | .null => false
  | .bool b => b
  | .num n => n != 0
  | .str s => s ≠ ""
  | .arr xs => !xs.isEmpty
  | .obj kvs => !kvs.isEmpty

/-- Unhashable Python values (lists and dicts): `set()` raises `TypeError` on
them. -/
def isUnhashable : Json → Bool
  | .arr _ => true
  | .obj _ => true
  | _ => false

mutual
/-- Python `==` on JSON values: structural comparison, except that booleans
compare equal to their integer values (`True == 1`) and dict comparison is
key-based and ignores key order. -/
def pyEq : Json → Json → Bool
  | .null, b => match b with | .null => true | _ => false
  | .bool a, b =>
      match b with
      | .bool c => a == c
      | .num n => (if a then (1 : Int) else 0) == n
      | _ => false
  | .num a, b =>
      match b with
      | .num c => a == c
      | .bool c => a == (if c then (1 : Int) else 0)
      | _ => false
  | .str a, b => match b with | .str c => a == c | _ => false
  | .arr a, b => match b with | .arr c => pyEqList a c | _ => false
  | .obj a, b =>
      match b with
      | .obj c => a.length == c.length && pyEqFields a c
      | _ => false
termination_by structural a => a
/-- Elementwise Python `==` of two JSON arrays. -/
def pyEqList : List Json → List Json → Bool
  | [], ys => ys.isEmpty
  | x :: xs, ys => match ys with | [] => false | y :: ys2 => pyEq x y && pyEqList xs ys2
termination_by structural a => a
/-- Every field of the first dict is present (by key) in the second with a
Python-equal value. -/
def pyEqFields : List (String × Json) → List (String × Json) → Bool
  | [], _ => true
  | kv :: rest, b => pyEqField kv b && pyEqFields rest b
termination_by structural a => a
/-- One field of the first dict, looked up by key in the second dict. -/
def pyEqField : String × Json → List (String × Json) → Bool
  | (k, v), b =>
      match b.find? (fun kv2 => kv2.1 == k) with
      | some kv2 => pyEq v kv2.2
      | none => false
termination_by structural a => a
end

/-! ### Manifest assembly (`ManifestGenerator`, lines 383-393 and 417-482) -/

/-- The `package` dict built at lines 384-393 (field insertion order as in the
source); the `platforms` value serializes each `asset_info` as
`{"url": ..., "size": ...}`. -/
def packageJson (name description repoUrl : String) (homepage license : Json)
    (platforms : List (String × AssetInfo)) : Json :=
  .obj [("name", .str name), ("description", .str description), ("repo", .str repoUrl),
        ("homepage", homepage), ("license", license),
        ("platforms", .obj (platforms.map
          (fun kv => (kv.1, Json.obj [("url", .str kv.2.url), ("size", .num kv.2.size)]))))]

/-- Repository metadata as `fetch_package_info` reads it from the GitHub API
response (the network fetch is the external collaborator). -/
structure RepoInfo : Type where
  name : String
  description : Option String
  html_url : String
  homepage : Json
  license_spdx : Option String

/-- The pure core of `ManifestGenerator.fetch_package_info` (lines 353-395):
select platforms from the release assets; if none, the source is skipped
(`None`), otherwise the package dict is assembled. -/
def fetch_package_info_pure (ri : RepoInfo) (assets : List Asset) : Option Json :=
  let platforms := selectPlatforms assets
  if platforms.isEmpty then none
  else some (packageJson ri.name (ri.description.getD "") ri.html_url ri.homepage
    (match ri.license_spdx with | some s => .str s | none => .null) platforms)

/-- The package loop of `ManifestGenerator.generate` (lines 454-459): each
fetched package is appended to `self.packages`; there is no other filtering. -/
def generateLoop (acc : List Json) : List (Option Json) → List Json
  | [] => acc
  | r :: rest => generateLoop (match r with | some p => acc ++ [p] | none => acc) rest

/-- The serialized `manifest_obj` (lines 472-479): `packages` and
`last_updated` always; `scripts` only when nonempty. -/
def manifestJson (packages : List Json) (scripts : List Json) (lastUpdated : String) : Json :=
  .obj ([("packages", .arr packages), ("last_updated", .str lastUpdated)]
        ++ (if scripts.isEmpty then [] else [("scripts", .arr scripts)]))

/-! ### `ManifestValidator` (validate_manifest.py)

The validator's `self.errors` / `self.warnings` lists become a `VState`
threaded through each `_validate_*` method.  Finding messages are modelled as
a structured type (one constructor per `append` site in the source) instead of
formatted strings.  Python exceptions escaping `validate()` (`AttributeError`
from `.get` on a non-dict, `TypeError` from iterating a non-iterable or from
`set()` on unhashable values) are modelled with `Except PyErr`.
-/

inductive PyErr : Type where
  | attributeError : PyErr
  | typeError : PyErr
deriving DecidableEq

/-- One structured finding per `self.errors.append` / `self.warnings.append`
site in the source, carrying the data interpolated into the message. -/
inductive Finding : Type where
  | manifestNotArray : Finding
  | emptyManifest : Finding
  | missingField : Json → String → Finding
  | invalidName : Json → Finding
  | invalidDescription : Json → Finding
  | invalidRepo : Json → Finding
  | repoNotGitHub : Json → Finding
  | invalidHomepage : Json → Finding
  | invalidLicense : Json → Finding
  | missingPlatforms : Json → Finding
  | platformsNotObject : Json → Finding
  | noPlatforms : Json → Finding
  | platformNotObject : Json → String → Finding
  | missingPlatformField : Json → String → String → Finding
  | invalidUrl : Json → String → Finding
  | urlNotHttps : Json → String → Finding
  | invalidSize : Json → String → Finding
  | invalidChecksum : Json → String → Finding
  | duplicateName : Json → Finding

/-- The validator's mutable `self.errors` and `self.warnings`. -/
structure VState : Type where
  errors : List Finding
  warnings : List Finding

def addErr (st : VState) (f : Finding) : VState :=
  { st with errors := st.errors ++ [f] }

def addWarn (st : VState) (f : Finding) : VState :=
  { st with warnings := st.warnings ++ [f] }

/-- `_validate_structure` (lines 66-73). -/
def vStructure (st : VState) (doc : Json) : VState :=
  match doc with
  | .arr xs => if xs.isEmpty then addWarn st .emptyManifest else st
  | _ => addErr st .manifestNotArray

/-- `s.startswith(pre)`. -/
def pyStartsWith (s pre : String) : Bool := List.isPrefixOf pre.data s.data

def requiredPackageFields : List String := ["name", "description", "repo", "platforms"]

def requiredPlatformFields : List String := ["url", "size"]

/-- The `for field in REQUIRED_PACKAGE_FIELDS` loop (lines 80-82). -/
def vRequired (pkgId : Json) (kvs : List (String × Json)) (st : VState) :
    List String → VState
  | [] => st
  | f :: fs =>
      vRequired pkgId kvs
        (if (jLookup f kvs).isSome then st else addErr st (.missingField pkgId f)) fs

/-- The `for field in REQUIRED_PLATFORM_FIELDS` loop (lines 139-141). -/
def vPlatRequired (pkgId : Json) (pid : String) (kvs : List (String × Json)) (st : VState) :
    List String → VState
  | [] => st
  | f :: fs =>
      vPlatRequired pkgId pid kvs
        (if (jLookup f kvs).isSome then st else addErr st (.missingPlatformField pkgId pid f)) fs

/-- The URL check of `_validate_platform` (lines 144-149). -/
def vPlatUrl (st : VState) (pkgId : Json) (pid : String) (kvs : List (String × Json)) : VState :=
  match jLookup "url" kvs with
  | some (.str u) => if pyStartsWith u "https://" then st else addWarn st (.urlNotHttps pkgId pid)
  | some _ => addErr st (.invalidUrl pkgId pid)
  | none => st

/-- The size check of `_validate_platform` (lines 151-155):
`if not isinstance(size, int) or size <= 0` — booleans pass `isinstance`. -/
def vPlatSize (st : VState) (pkgId : Json) (pid : String) (kvs : List (String × Json)) : VState :=
  match jLookup "size" kvs with
  | some v => if !(isIntLike v) || pyIntVal v ≤ 0 then addErr st (.invalidSize pkgId pid) else st
  | none => st

/-- The optional checksum check of `_validate_platform` (lines 157-161). -/
def vPlatChecksum (st : VState) (pkgId : Json) (pid : String)
    (kvs : List (String × Json)) : VState :=
  match jLookup "checksum" kvs with
  | some (.str _) => st
  | some _ => addWarn st (.invalidChecksum pkgId pid)
  | none => st

/-- `_validate_platform` (lines 132-161). -/
def vPlatform (st : VState) (pkgId : Json) (pid : String) (p : Json) : VState :=
  match p with
  | .obj kvs =>
      vPlatChecksum
        (vPlatSize (vPlatUrl (vPlatRequired pkgId pid kvs st requiredPlatformFields)
          pkgId pid kvs) pkgId pid kvs) pkgId pid kvs
  | _ => addErr st (.platformNotObject pkgId pid)

/-- The `for platform_id, platform_data in platforms.items()` loop. -/
def vPlatformsLoop (pkgId : Json) : VState → List (String × Json) → VState
  | st, [] => st
  | st, kv :: rest => vPlatformsLoop pkgId (vPlatform st pkgId kv.1 kv.2) rest

/-- `_validate_platforms` (lines 118-130). -/
def vPlatforms (st : VState) (pkgId : Json) (ps : Json) : VState :=
  match ps with
  | .obj kvs =>
      if kvs.isEmpty then addErr st (.noPlatforms pkgId)
      else vPlatformsLoop pkgId st kvs
  | _ => addErr st (.platformsNotObject pkgId)

/-- The `pkg_id` used in messages: `package.get('name', f'package[{index}]')`. -/
def pkgIdOf (idx : Nat) (kvs : List (String × Json)) : Json :=
  (jLookup "name" kvs).getD (.str ("package[" ++ toString idx ++ "]"))

/-- The name check of `_validate_package` (lines 85-87). -/
def vPkgName (st : VState) (pkgId : Json) (kvs : List (String × Json)) : VState :=
  match jLookup "name" kvs with
  | some v =>
      if (match v with | .str s => s != "" | _ => false) then st
      else addErr st (.invalidName pkgId)
  | none => st

/-- The description check (lines 89-92). -/
def vPkgDescription (st : VState) (pkgId : Json) (kvs : List (String × Json)) : VState :=
  match jLookup "description" kvs with
  | some v => if isStrJ v then st else addErr st (.invalidDescription pkgId)
  | none => st

/-- The repo URL check (lines 94-100). -/
def vPkgRepo (st : VState) (pkgId : Json) (kvs : List (String × Json)) : VState :=
  match jLookup "repo" kvs with
  | some (.str r) =>
      if pyStartsWith r "https://github.com/" then st else addWarn st (.repoNotGitHub pkgId)
  | some _ => addErr st (.invalidRepo pkgId)
  | none => st

/-- The optional homepage check (lines 102-105). -/
def vPkgHomepage (st : VState) (pkgId : Json) (kvs : List (String × Json)) : VState :=
  match jLookup "homepage" kvs with
  | some v =>
      if pyTruthy v then (if isStrJ v then st else addErr st (.invalidHomepage pkgId)) else st
  | none => st

/-- The optional license check (lines 107-110). -/
def vPkgLicense (st : VState) (pkgId : Json) (kvs : List (String × Json)) : VState :=
  match jLookup "license" kvs with
  | some v =>
      if pyTruthy v then (if isStrJ v then st else addWarn st (.invalidLicense pkgId)) else st
  | none => st

/-- The platforms dispatch (lines 112-116). -/
def vPkgPlatforms (st : VState) (pkgId : Json) (kvs : List (String × Json)) : VState :=
  match jLookup "platforms" kvs with
  | some ps => vPlatforms st pkgId ps
  | none => addErr st (.missingPlatforms pkgId)

/-- The body of `_validate_package` (lines 75-116) once the package is known
to be a dict; the checks run in source order. -/
def vPackageObj (st : VState) (idx : Nat) (kvs : List (String × Json)) : VState :=
  let pkgId := pkgIdOf idx kvs
  vPkgPlatforms
    (vPkgLicense
      (vPkgHomepage
        (vPkgRepo
          (vPkgDescription
            (vPkgName (vRequired pkgId kvs st requiredPackageFields) pkgId kvs)
            pkgId kvs)
          pkgId kvs)
        pkgId kvs)
      pkgId kvs)
    pkgId kvs

/-- `_validate_package`: `package.get(...)` raises `AttributeError` when the
package is not a dict. -/
def vPackage (st : VState) (idx : Nat) (pkg : Json) : Except PyErr VState :=
  match pkg with
  | .obj kvs => .ok (vPackageObj st idx kvs)
  | _ => .error .attributeError

/-- Python iteration over `self.packages` (used by both the package loop and
`_check_duplicates`): lists yield elements, dicts yield their keys, strings
yield 1-character strings, everything else raises `TypeError`. -/
def pyIterItems : Json → Except PyErr (List Json)
  | .arr xs => .ok xs
  | .obj kvs => .ok (kvs.map (fun kv => Json.str kv.1))
  | .str s => .ok (s.data.map (fun c => Json.str (String.singleton c)))
  | _ => .error .typeError

/-- The `for i, package in enumerate(self.packages)` loop of `validate`. -/
def foldPackages (st : VState) (idx : Nat) : List Json → Except PyErr VState
  | [] => .ok st
  | pkg :: rest =>
      match vPackage st idx pkg with
      | .ok st2 => foldPackages st2 (idx + 1) rest
      | .error e => .error e

/-- Python `'name' in pkg`: key test for dicts, element test for lists,
substring test for strings, `TypeError` otherwise. -/
def pyContainsName : Json → Except PyErr Bool
  | .obj kvs => .ok ((jLookup "name" kvs).isSome)
  | .arr xs => .ok (xs.any (fun x => pyEq x (.str "name")))
  | .str s => .ok (hasSubstr "name".data s.data)
  | _ => .error .typeError

/-- `pkg.get('name')`: `AttributeError` unless `pkg` is a dict. -/
def pyGetName : Json → Except PyErr Json
  | .obj kvs => .ok ((jLookup "name" kvs).getD .null)
  | _ => .error .attributeError

/-- `[pkg.get('name') for pkg in self.packages if 'name' in pkg]`. -/
def collectNames : List Json → Except PyErr (List Json)
  | [] => .ok []
  | pkg :: rest =>
      match pyContainsName pkg with
      | .error e => .error e
      | .ok false => collectNames rest
      | .ok true =>
          match pyGetName pkg with
          | .error e => .error e
          | .ok v =>
              match collectNames rest with
              | .error e => .error e
              | .ok vs => .ok (v :: vs)

/-- `names.count(name)` (Python `==` counting). -/
def countPyEq (names : List Json) (v : Json) : Nat :=
  (names.filter (fun x => pyEq x v)).length

/-- Deduplication up to Python `==`, keeping first occurrences (models the
contents of the `set(...)`; iteration order of a Python set is unspecified,
only the collection of distinct duplicated names is determined). -/
def dedupPyEq : List Json → List Json → List Json
  | [], _ => []
  | x :: rest, seen =>
      if seen.any (fun y => pyEq y x) then dedupPyEq rest seen
      else x :: dedupPyEq rest (x :: seen)

/-- `_check_duplicates` (lines 163-169): collect names, filter those occurring
more than once, build a `set` of them (raising `TypeError` on unhashable
values), and append one duplicate-name error per distinct duplicated name. -/
def vCheckDuplicates (st : VState) (doc : Json) : Except PyErr VState :=
  match pyIterItems doc with
  | .error e => .error e
  | .ok pkgs =>
      match collectNames pkgs with
      | .error e => .error e
      | .ok names =>
          let dups := names.filter (fun n => 1 < countPyEq names n)
          if dups.any isUnhashable then .error .typeError
          else .ok ((dedupPyEq dups []).foldl (fun s n => addErr s (.duplicateName n)) st)

/-- `ManifestValidator.validate` (lines 25-47) after a successful JSON load:
structure check, per-package loop, duplicate check, then
`return len(self.errors) == 0`.  A raised exception is an `Except.error`. -/
def validateDoc (doc : Json) : Except PyErr (Bool × VState) :=
  let st := vStructure { errors := [], warnings := [] } doc
  match pyIterItems doc with
  | .error e => .error e
  | .ok items =>
      match foldPackages st 0 items with
      | .error e => .error e
      | .ok st2 =>
          match vCheckDuplicates st2 doc with
          | .error e => .error e
          | .ok st3 => .ok (st3.errors.isEmpty, st3)

/-! ### Spec-side definitions and sample data -/

/-- Modelled from the spec: the closed set of §4.1 platform identifiers
(`windows-`, `linux-`, `darwin-`, `freebsd-` prefixed, with the architectures
listed there).  Used only to compare the spec's claimed closed set with the
code's tables. -/
def spec41PlatformIds : List String :=
  ["windows-x86_64", "windows-i686", "linux-x86_64", "linux-aarch64", "linux-armv7",
   "linux-armv6", "linux-i686", "darwin-x86_64", "darwin-aarch64", "freebsd-x86_64"]

/-- The platform identifiers the code can actually emit: the keys of
`PATTERNS` followed by the keys of `FALLBACK_PATTERNS`. -/
def codePlatformIds : List String :=
  patternsTable.map Prod.fst ++ fallbackTable.map Prod.fst

/-- A sample repository metadata record for exercising the generation
pipeline. -/
def demoRepo : RepoInfo :=
  { name := "app", description := some "demo", html_url := "https://github.com/o/app",
    homepage := .null, license_spdx := some "MIT" }

/-- A sample release asset classified as `windows-x86_64`. -/
def demoAsset : Asset :=
  { name := "app-win64.zip", browser_download_url := "https://example.com/app-win64.zip",
    size := 5 }

/-! ### Helper lemmas -/

theorem findMatch_mem (tbl : List (String × List RE)) (l : List Char) (p : String)
    (h : findMatch tbl l = some p) : p ∈ tbl.map Prod.fst := by
  induction tbl with
  | nil => simp [findMatch] at h
  | cons e rest ih =>
      obtain ⟨q, pats⟩ := e
      rw [findMatch] at h
      by_cases hm : pats.any (fun r => searchRE r l) = true
      · rw [if_pos hm] at h
        injection h with h
        simp [h]
      · rw [if_neg hm] at h
        simp only [List.map_cons, List.mem_cons]
        exact Or.inr (ih h)

/-! ### Claim theorems -/

/-- Claim C1 (code_bug evidence): a manifest produced by a successful
generation run — the `{"packages": ..., "last_updated": ...}` envelope with
one well-formed package — does not re-validate cleanly: the validator treats
the top-level object as the package array, records a structure error and then
crashes with `AttributeError` while iterating the object's keys, instead of
reporting zero errors and warnings. -/
theorem generated_manifest_crashes_validator :
    (generateLoop [] [fetch_package_info_pure demoRepo [demoAsset]]).length = 1
    ∧ validateDoc (manifestJson (generateLoop [] [fetch_package_info_pure demoRepo [demoAsset]])
        [] "2025-01-01T00:00:00Z") = .error .attributeError :=
  ⟨rfl, rfl⟩

/-- Claim C2 (code_bug evidence): `validate()` raises instead of returning a
boolean on JSON documents that parse but are not arrays of dicts — a
top-level object yields `AttributeError` (iterating the dict produces its
string keys, and `.get` on a string raises), a top-level number yields
`TypeError` (not iterable). -/
theorem validator_raises_on_object_document :
    validateDoc (.obj [("packages", .arr [])]) = .error .attributeError
    ∧ validateDoc (.num 5) = .error .typeError :=
  ⟨rfl, rfl⟩

/-- Claim C4 (counterexample): the classifier can emit `macos-aarch64`, an
identifier outside the spec's §4.1 closed set of `windows-`/`linux-`/
`darwin-`/`freebsd-` prefixed ids. -/
theorem classifier_emits_macos_id :
    detect_platform "tool-macos-aarch64.tar.gz" = some "macos-aarch64"
    ∧ ¬ ("macos-aarch64" ∈ spec41PlatformIds) :=
  ⟨rfl, by decide⟩

/-- Claim C4 (amended): every platform identifier the classifier emits is a
key of the code's `PATTERNS` or `FALLBACK_PATTERNS` table — the §4.1 set plus
the legacy `macos-x86_64` / `macos-aarch64` keys. -/
theorem classifier_closed_key_set (s : String) (p : String)
    (h : detect_platform s = some p) : p ∈ codePlatformIds := by
  unfold detect_platform at h
  simp only [Option.map_eq_some'] at h
  obtain ⟨a, ha, hfa⟩ := h
  subst hfa
  unfold detectPlatformFull at ha
  by_cases hg : archiveExtensions.any (fun e => List.isSuffixOf e.data (pyLower s)) = true
  · rw [if_pos hg] at ha
    rcases hm : findMatch patternsTable (pyLower s) with _ | q2
    · rw [hm] at ha
      simp only [Option.map_eq_some'] at ha
      obtain ⟨q3, hq3, hqb⟩ := ha
      have hfst : a.1 = q3 := by rw [← hqb]
      rw [hfst]
      exact List.mem_append.mpr (Or.inr (findMatch_mem _ _ _ hq3))
    · rw [hm] at ha
      injection ha with ha
      rw [← ha]
      exact List.mem_append.mpr (Or.inl (findMatch_mem _ _ _ hm))
  · rw [if_neg hg] at ha
    exact absurd ha (by simp)

/-- Claim C4 (witness for the amended theorem): `mytool-linux.tar.gz`
classifies to `linux-x86_64`, which is one of the code's table keys. -/
theorem classifier_closed_key_set_witness :
    "linux-x86_64" ∈ codePlatformIds :=
  classifier_closed_key_set "mytool-linux.tar.gz" "linux-x86_64" rfl

/-- Claim C7: a filename that does not end (case-insensitively) in one of the
recognized archive/installer extensions is never classified, whatever tokens
it contains. -/
theorem non_archive_extension_unclassified (s : String)
    (h : archiveExtensions.any (fun e => List.isSuffixOf e.data (pyLower s)) = false) :
    detect_platform s = none := by
  unfold detect_platform detectPlatformFull
  rw [if_neg (by simp [h])]
  rfl

/-- Claim C7 (witness): `app.sha256` has no archive extension and is
unclassified. -/
theorem non_archive_extension_unclassified_witness :
    (archiveExtensions.any (fun e => List.isSuffixOf e.data (pyLower "app.sha256")) = false)
    ∧ detect_platform "app.sha256" = none :=
  ⟨by decide, non_archive_extension_unclassified "app.sha256" (by decide)⟩

/-- Claim C8: `tool-win64.zip` classifies to `windows-x86_64` in the exact
phase; `tool-mac.tar.gz` classifies to `darwin-aarch64` through the fallback
phase and is flagged as an assumption; the fallback table's assumed default
architectures are Windows → x86_64, Linux → x86_64, macOS → aarch64; and a
fallback-flagged result is only produced when no exact pattern matched. -/
theorem fallback_default_architectures :
    detectPlatformFull "tool-win64.zip" = some ("windows-x86_64", false)
    ∧ detectPlatformFull "tool-mac.tar.gz" = some ("darwin-aarch64", true)
    ∧ fallbackTable.map Prod.fst = ["windows-x86_64", "linux-x86_64", "darwin-aarch64"]
    ∧ (∀ s p, detectPlatformFull s = some (p, true) →
        findMatch patternsTable (pyLower s) = none) := by
  refine ⟨rfl, rfl, rfl, ?_⟩
  intro s p h
  unfold detectPlatformFull at h
  by_cases hg : archiveExtensions.any (fun e => List.isSuffixOf e.data (pyLower s)) = true
  · rw [if_pos hg] at h
    rcases hm : findMatch patternsTable (pyLower s) with _ | q
    · rfl
    · rw [hm] at h
      injection h with h
      have hsnd := congrArg Prod.snd h
      simp at hsnd
  · rw [if_neg hg] at h
    exact absurd h (by simp)

/-- Claim C8 (witness): discharging the fallback-only-if-no-exact rule at the
concrete fallback example — no exact pattern matches `tool-mac.tar.gz`. -/
theorem fallback_default_architectures_witness :
    findMatch patternsTable (pyLower "tool-mac.tar.gz") = none :=
  fallback_default_architectures.2.2.2 "tool-mac.tar.gz" "darwin-aarch64"
    fallback_default_architectures.2.1

/-- Claim C10: the validator's size check treats Python booleans as integers:
`size: true` passes with no error and no warning, while `size: false` (value
0) is an error. -/
theorem boolean_size_accepted_as_integer :
    vPlatform { errors := [], warnings := [] } (.str "pkg") "linux-x86_64"
      (.obj [("url", .str "https://example.com/a"), ("size", .bool true)])
      = { errors := [], warnings := [] }
    ∧ vPlatform { errors := [], warnings := [] } (.str "pkg") "linux-x86_64"
      (.obj [("url", .str "https://example.com/a"), ("size", .bool false)])
      = { errors := [.invalidSize (.str "pkg") "linux-x86_64"], warnings := [] }
    ∧ isIntLike (.bool true) = true ∧ isIntLike (.bool false) = true :=
  ⟨rfl, rfl, rfl, rfl⟩

/-- The `name` field of a package record. -/
def jName : Json → Option Json
  | .obj kvs => jLookup "name" kvs
  | _ => none

/-- Two fetched package records carrying the same name `app` (as produced by
two sources whose repositories share a name). -/
def dupPkgFirst : Json :=
  packageJson "app" "first" "https://github.com/o/app" .null .null
    [("windows-x86_64", { url := "https://example.com/a.zip", size := 10 })]

/-- Second record with the same name; see `dupPkgFirst`. -/
def dupPkgSecond : Json :=
  packageJson "app" "second" "https://github.com/o/app2" .null .null
    [("linux-x86_64", { url := "https://example.com/b.tar.gz", size := 20 })]

theorem generateLoop_eq_append (rs : List (Option Json)) :
    ∀ acc, generateLoop acc rs = acc ++ rs.filterMap id := by
  induction rs with
  | nil => intro acc; simp [generateLoop]
  | cons r rest ih =>
      intro acc
      cases r with
      | none => simp [generateLoop, ih]
      | some p => simp [generateLoop, ih]

/-- Claim C3 (counterexample): run the builder's package loop on two sources
that both fetch successfully with the same record name — both records are
kept, so the emitted packages sequence does contain two records with equal
name. -/
theorem builder_emits_duplicate_names :
    generateLoop [] [some dupPkgFirst, some dupPkgSecond] = [dupPkgFirst, dupPkgSecond]
    ∧ jName dupPkgFirst = some (.str "app")
    ∧ jName dupPkgSecond = some (.str "app") :=
  ⟨rfl, rfl, rfl⟩

/-- Claim C3 (amended): the builder performs no duplicate-name rejection — it
appends every successfully fetched record in order — and duplicate names are
instead detected by the validator, which reports exactly one duplicate-name
error for a manifest holding two records with the same name. -/
theorem builder_appends_all_and_validator_flags_duplicates :
    (∀ rs : List (Option Json), generateLoop [] rs = rs.filterMap id)
    ∧ validateDoc (.arr [dupPkgFirst, dupPkgSecond])
        = .ok (false, { errors := [.duplicateName (.str "app")], warnings := [] }) :=
  ⟨fun rs => by simpa using generateLoop_eq_append rs [], rfl⟩

/-! ### Selector characterization (claims C5 and C6) -/

/-- The Linux variant priority of an asset. -/
def assetPrio (a : Asset) : Int := get_linux_variant_priority a.name

/-- Spec-side description (for comparison with the code's fold): the first
asset, in arrival order, whose variant priority is maximal in `l`. -/
def firstMaxAsset (l : List Asset) : Option Asset :=
  l.find? (fun a => l.all (fun b => decide (assetPrio b ≤ assetPrio a)))

/-- The Linux branch of the asset loop, projected to a single platform key:
a candidate replaces the current binding only when its priority is strictly
greater (`current_priority > existing_priority`). -/
def linuxStep (st : Option AssetInfo × Int) (a : Asset) : Option AssetInfo × Int :=
  if assetPrio a > st.2 then (some (assetInfoOf a), assetPrio a) else st

def linuxFold : Option AssetInfo × Int → List Asset → Option AssetInfo × Int
  | st, [] => st
  | st, a :: rest => linuxFold (linuxStep st a) rest

/-- The non-Linux branch projected to one platform key: unconditional
overwrite. -/
def lastFold : Option AssetInfo → List Asset → Option AssetInfo
  | c, [] => c
  | _, a :: rest => lastFold (some (assetInfoOf a)) rest

theorem assetPrio_pos (a : Asset) : 1 ≤ assetPrio a := by
  unfold assetPrio get_linux_variant_priority
  dsimp only
  split
  · decide
  · split <;> decide

theorem dictGet_dictSet_self {A : Type} (m : List (String × A)) (k : String) (v : A) :
    dictGet k (dictSet m k v) = some v := by
  induction m with
  | nil => simp [dictSet, dictGet]
  | cons kv rest ih =>
      obtain ⟨k2, v2⟩ := kv
      by_cases h : k2 = k
      · subst h; simp [dictSet, dictGet]
      · simp [dictSet, dictGet, h, ih]

theorem dictGet_dictSet_ne {A : Type} (m : List (String × A)) (k k2 : String) (v : A)
    (h : k2 ≠ k) : dictGet k (dictSet m k2 v) = dictGet k m := by
  induction m with
  | nil => simp [dictSet, dictGet, h]
  | cons kv rest ih =>
      obtain ⟨k3, v3⟩ := kv
      by_cases h3 : k3 = k2
      · subst h3
        simp [dictSet, dictGet, h]
      · by_cases h4 : k3 = k
        · subst h4; simp [dictSet, dictGet, h3]
        · simp [dictSet, dictGet, h3, h4, ih]

theorem find_pred_congr {α : Type} (l : List α) (p q : α → Bool)
    (h : ∀ x ∈ l, p x = q x) : l.find? p = l.find? q := by
  induction l with
  | nil => rfl
  | cons x rest ih =>
      have hx : p x = q x := h x (List.mem_cons_self x rest)
      cases hq : q x with
      | true => simp [List.find?, hx, hq]
      | false =>
          simp only [List.find?, hx, hq]
          exact ih (fun y hy => h y (List.mem_cons_of_mem x hy))

theorem all_pred_congr {α : Type} (l : List α) (p q : α → Bool)
    (h : ∀ x ∈ l, p x = q x) : l.all p = l.all q := by
  induction l with
  | nil => rfl
  | cons x rest ih =>
      have hx : p x = q x := h x (List.mem_cons_self x rest)
      simp only [List.all_cons, hx]
      rw [ih (fun y hy => h y (List.mem_cons_of_mem x hy))]

/-- The Linux fold computes, from any starting state, the first asset whose
priority strictly exceeds the starting priority and is maximal among the
assets of the list. -/
theorem linuxFold_fst_eq (l : List Asset) : ∀ (c : Option AssetInfo) (k : Int),
    (linuxFold (c, k) l).1 =
      if l.all (fun b => decide (assetPrio b ≤ k)) then c
      else (l.find? (fun a => decide (k < assetPrio a)
          && l.all (fun b => decide (assetPrio b ≤ assetPrio a)))).map assetInfoOf := by
  induction l with
  | nil => intro c k; simp [linuxFold]
  | cons a rest ih =>
      intro c k
      rw [linuxFold]
      by_cases h : k < assetPrio a
      · have hstep : linuxStep (c, k) a = (some (assetInfoOf a), assetPrio a) := by
          unfold linuxStep
          rw [if_pos h]
        rw [hstep, ih]
        have hka : decide (assetPrio a ≤ k) = false := decide_eq_false (by omega)
        have hcond : ((a :: rest).all fun b => decide (assetPrio b ≤ k)) = false := by
          rw [List.all_cons, hka, Bool.false_and]
        rw [hcond, if_neg (show ¬ false = true by simp)]
        by_cases hA : rest.all (fun b => decide (assetPrio b ≤ assetPrio a)) = true
        · rw [if_pos hA]
          rw [List.find?_cons_of_pos _ (by
            show (decide (k < assetPrio a)
              && (a :: rest).all fun b => decide (assetPrio b ≤ assetPrio a)) = true
            rw [List.all_cons, decide_eq_true h, decide_eq_true (le_refl (assetPrio a)), hA]
            rfl)]
          rfl
        · rw [Bool.not_eq_true] at hA
          rw [if_neg (by rw [Bool.not_eq_true]; exact hA)]
          rw [List.find?_cons_of_neg _ (by
            show ¬ (decide (k < assetPrio a)
              && (a :: rest).all fun b => decide (assetPrio b ≤ assetPrio a)) = true
            rw [List.all_cons, hA]
            simp)]
          have hcongr : rest.find? (fun x => decide (k < assetPrio x)
              && (a :: rest).all fun b => decide (assetPrio b ≤ assetPrio x))
              = rest.find? (fun x => decide (assetPrio a < assetPrio x)
                  && rest.all fun b => decide (assetPrio b ≤ assetPrio x)) := by
            apply find_pred_congr
            intro x hx
            show (decide (k < assetPrio x)
                && (a :: rest).all fun b => decide (assetPrio b ≤ assetPrio x))
              = (decide (assetPrio a < assetPrio x)
                && rest.all fun b => decide (assetPrio b ≤ assetPrio x))
            rw [List.all_cons]
            cases hAx : rest.all (fun b => decide (assetPrio b ≤ assetPrio x)) with
            | false => simp [hAx]
            | true =>
                by_cases hlt : assetPrio a < assetPrio x
                · rw [decide_eq_true (show k < assetPrio x by omega),
                    decide_eq_true (show assetPrio a ≤ assetPrio x by omega),
                    decide_eq_true hlt]
                  rfl
                · have hxa : ¬ (assetPrio a ≤ assetPrio x) := by
                    intro hle
                    have hEq : assetPrio x = assetPrio a := by omega
                    have hax2 : rest.all (fun b => decide (assetPrio b ≤ assetPrio a)) = true := by
                      rw [← hAx]
                      apply all_pred_congr
                      intro y _
                      show decide (assetPrio y ≤ assetPrio a) = decide (assetPrio y ≤ assetPrio x)
                      rw [← hEq]
                    rw [hax2] at hA
                    cases hA
                  rw [decide_eq_false hxa, decide_eq_false hlt]
                  simp
          rw [hcongr]
      · have hstep : linuxStep (c, k) a = (c, k) := by
          unfold linuxStep
          rw [if_neg h]
        rw [hstep, ih]
        have hka : decide (assetPrio a ≤ k) = true := decide_eq_true (by omega)
        have hcond : ((a :: rest).all fun b => decide (assetPrio b ≤ k))
            = rest.all fun b => decide (assetPrio b ≤ k) := by
          rw [List.all_cons, hka, Bool.true_and]
        by_cases hall : rest.all (fun b => decide (assetPrio b ≤ k)) = true
        · rw [if_pos hall, if_pos (by rw [hcond]; exact hall)]
        · rw [if_neg hall, if_neg (by rw [hcond]; exact hall)]
          rw [List.find?_cons_of_neg _ (by
            show ¬ (decide (k < assetPrio a)
              && (a :: rest).all fun b => decide (assetPrio b ≤ assetPrio a)) = true
            rw [decide_eq_false (show ¬ k < assetPrio a from h), Bool.false_and]
            simp)]
          have hcongr : rest.find? (fun x => decide (k < assetPrio x)
              && (a :: rest).all fun b => decide (assetPrio b ≤ assetPrio x))
              = rest.find? (fun x => decide (k < assetPrio x)
                  && rest.all fun b => decide (assetPrio b ≤ assetPrio x)) := by
            apply find_pred_congr
            intro x hx
            show (decide (k < assetPrio x)
                && (a :: rest).all fun b => decide (assetPrio b ≤ assetPrio x))
              = (decide (k < assetPrio x)
                && rest.all fun b => decide (assetPrio b ≤ assetPrio x))
            cases hkx : decide (k < assetPrio x) with
            | false => simp
            | true =>
                have hklt : k < assetPrio x := of_decide_eq_true hkx
                rw [List.all_cons, decide_eq_true (show assetPrio a ≤ assetPrio x by omega),
                  Bool.true_and]
          rw [hcongr]

/-- Projection of the full asset loop onto one Linux platform key: the state
components at key `p` evolve exactly like `linuxFold` over the sublist of
assets classifying to `p`. -/
theorem selectLoop_linux_proj (p : String) (hp : isLinuxPlat p = true) :
    ∀ (assets : List Asset) (m : List (String × AssetInfo)) (pr : List (String × Int)),
      (dictGet p (selectLoop (m, pr) assets).1, (dictGet p (selectLoop (m, pr) assets).2).getD 0)
      = linuxFold (dictGet p m, (dictGet p pr).getD 0)
          (assets.filter (fun a => decide (detect_platform a.name = some p))) := by
  intro assets
  induction assets with
  | nil => intro m pr; rfl
  | cons a rest ih =>
      intro m pr
      rw [selectLoop, List.filter_cons]
      by_cases hd : detect_platform a.name = some p
      · rw [if_pos (by rw [decide_eq_true hd])]
        by_cases hcur : get_linux_variant_priority a.name > (dictGet p pr).getD 0
        · have hsp : selectStep (m, pr) a
              = (dictSet m p (assetInfoOf a),
                 dictSet pr p (get_linux_variant_priority a.name)) := by
            simp only [selectStep, hd, hp, if_true, hcur, ite_true]
          rw [hsp, ih, dictGet_dictSet_self, dictGet_dictSet_self, Option.getD_some]
          rw [linuxFold]
          have hls : linuxStep (dictGet p m, (dictGet p pr).getD 0) a
              = (some (assetInfoOf a), get_linux_variant_priority a.name) := by
            unfold linuxStep
            rw [if_pos (show (dictGet p m, (dictGet p pr).getD 0).2 < assetPrio a from hcur)]
            rfl
          rw [hls]
        · have hsp : selectStep (m, pr) a = (m, pr) := by
            simp only [selectStep, hd, hp, if_true]
            rw [if_neg hcur]
          rw [hsp, ih, linuxFold]
          have hls : linuxStep (dictGet p m, (dictGet p pr).getD 0) a
              = (dictGet p m, (dictGet p pr).getD 0) := by
            unfold linuxStep
            rw [if_neg (show ¬ (dictGet p m, (dictGet p pr).getD 0).2 < assetPrio a from hcur)]
          rw [hls]
      · rw [if_neg (by rw [decide_eq_false hd]; simp)]
        rcases hdo : detect_platform a.name with _ | q
        · have hsp : selectStep (m, pr) a = (m, pr) := by
            simp only [selectStep, hdo]
          rw [hsp, ih]
        · have hq : q ≠ p := fun hqp => hd (by rw [hdo, hqp])
          by_cases hlq : isLinuxPlat q = true
          · by_cases hcur : get_linux_variant_priority a.name > (dictGet q pr).getD 0
            · have hsp : selectStep (m, pr) a
                  = (dictSet m q (assetInfoOf a),
                     dictSet pr q (get_linux_variant_priority a.name)) := by
                simp only [selectStep, hdo, hlq, if_true, hcur, ite_true]
              rw [hsp, ih, dictGet_dictSet_ne _ _ _ _ hq, dictGet_dictSet_ne _ _ _ _ hq]
            · have hsp : selectStep (m, pr) a = (m, pr) := by
                simp only [selectStep, hdo, hlq, if_true]
                rw [if_neg hcur]
              rw [hsp, ih]
          · have hsp : selectStep (m, pr) a = (dictSet m q (assetInfoOf a), pr) := by
              simp only [selectStep, hdo]
              rw [if_neg hlq]
            rw [hsp, ih, dictGet_dictSet_ne _ _ _ _ hq]

/-- Projection of the full asset loop onto one non-Linux platform key: pure
last-write-wins. -/
theorem selectLoop_nonlinux_proj (p : String) (hp : isLinuxPlat p = false) :
    ∀ (assets : List Asset) (m : List (String × AssetInfo)) (pr : List (String × Int)),
      dictGet p (selectLoop (m, pr) assets).1
      = lastFold (dictGet p m)
          (assets.filter (fun a => decide (detect_platform a.name = some p))) := by
  intro assets
  induction assets with
  | nil => intro m pr; rfl
  | cons a rest ih =>
      intro m pr
      rw [selectLoop, List.filter_cons]
      by_cases hd : detect_platform a.name = some p
      · rw [if_pos (by rw [decide_eq_true hd])]
        have hsp : selectStep (m, pr) a = (dictSet m p (assetInfoOf a), pr) := by
          simp only [selectStep, hd]
          rw [if_neg (by rw [hp]; simp)]
        rw [hsp, ih, dictGet_dictSet_self, lastFold]
      · rw [if_neg (by rw [decide_eq_false hd]; simp)]
        rcases hdo : detect_platform a.name with _ | q
        · have hsp : selectStep (m, pr) a = (m, pr) := by
            simp only [selectStep, hdo]
          rw [hsp, ih]
        · have hq : q ≠ p := fun hqp => hd (by rw [hdo, hqp])
          by_cases hlq : isLinuxPlat q = true
          · by_cases hcur : get_linux_variant_priority a.name > (dictGet q pr).getD 0
            · have hsp : selectStep (m, pr) a
                  = (dictSet m q (assetInfoOf a),
                     dictSet pr q (get_linux_variant_priority a.name)) := by
                simp only [selectStep, hdo, hlq, if_true, hcur, ite_true]
              rw [hsp, ih, dictGet_dictSet_ne _ _ _ _ hq]
            · have hsp : selectStep (m, pr) a = (m, pr) := by
                simp only [selectStep, hdo, hlq, if_true]
                rw [if_neg hcur]
              rw [hsp, ih]
          · have hsp : selectStep (m, pr) a = (dictSet m q (assetInfoOf a), pr) := by
              simp only [selectStep, hdo]
              rw [if_neg hlq]
            rw [hsp, ih, dictGet_dictSet_ne _ _ _ _ hq]

theorem lastFold_eq_getLast (l : List Asset) : ∀ c,
    lastFold c l = (l.getLast?).elim c (fun a => some (assetInfoOf a)) := by
  induction l with
  | nil => intro c; rfl
  | cons a rest ih =>
      intro c
      rw [lastFold, ih]
      cases rest with
      | nil => rfl
      | cons b rest2 =>
          rw [List.getLast?_cons_cons]
          rcases hgl : (b :: rest2).getLast? with _ | x
          · exact absurd hgl (by simp)
          · rfl

/-- The musl-variant Linux asset of the spec's worked example. -/
def muslAsset : Asset :=
  { name := "app-x86_64-unknown-linux-musl.tar.gz",
    browser_download_url := "https://example.com/app-musl.tar.gz", size := 11 }

/-- The gnu-variant Linux asset of the spec's worked example. -/
def gnuAsset : Asset :=
  { name := "app-x86_64-unknown-linux-gnu.tar.gz",
    browser_download_url := "https://example.com/app-gnu.tar.gz", size := 12 }

/-- Claim C5: for every asset list and Linux platform id, the selector's
binding is the first asset (in arrival order) of maximal variant priority
among the assets classifying to that platform — replacement happens only on
strictly greater priority.  In particular the musl and gnu example assets
both classify to `linux-x86_64`, their priorities are 3 and 2, and the musl
asset is selected whichever order the two arrive in. -/
theorem linux_variant_priority_first_max :
    (∀ (assets : List Asset) (p : String), isLinuxPlat p = true →
      dictGet p (selectPlatforms assets)
        = (firstMaxAsset (assets.filter
            (fun a => decide (detect_platform a.name = some p)))).map assetInfoOf)
    ∧ detect_platform "app-x86_64-unknown-linux-musl.tar.gz" = some "linux-x86_64"
    ∧ detect_platform "app-x86_64-unknown-linux-gnu.tar.gz" = some "linux-x86_64"
    ∧ get_linux_variant_priority "app-x86_64-unknown-linux-musl.tar.gz" = 3
    ∧ get_linux_variant_priority "app-x86_64-unknown-linux-gnu.tar.gz" = 2
    ∧ dictGet "linux-x86_64" (selectPlatforms [gnuAsset, muslAsset]) = some (assetInfoOf muslAsset)
    ∧ dictGet "linux-x86_64" (selectPlatforms [muslAsset, gnuAsset])
        = some (assetInfoOf muslAsset) := by
  refine ⟨?_, rfl, rfl, rfl, rfl, rfl, rfl⟩
  intro assets p hp
  have h1 := congrArg Prod.fst (selectLoop_linux_proj p hp assets [] [])
  dsimp only at h1
  rw [linuxFold_fst_eq] at h1
  unfold selectPlatforms
  rw [h1]
  rcases hf : assets.filter (fun a => decide (detect_platform a.name = some p)) with _ | ⟨x, xs⟩
  · rw [hf]
    rfl
  · rw [hf]
    rw [List.all_cons,
      decide_eq_false (show ¬ assetPrio x ≤ (dictGet p ([] : List (String × Int))).getD 0 by
        have := assetPrio_pos x
        simp only [dictGet, Option.getD_none]
        omega),
      Bool.false_and, if_neg (by simp)]
    unfold firstMaxAsset
    have hcongr : (x :: xs).find? (fun a =>
        decide ((dictGet p ([] : List (String × Int))).getD 0 < assetPrio a)
          && (x :: xs).all fun b => decide (assetPrio b ≤ assetPrio a))
        = (x :: xs).find? (fun a => (x :: xs).all fun b => decide (assetPrio b ≤ assetPrio a)) := by
      apply find_pred_congr
      intro y hy
      show (decide ((dictGet p ([] : List (String × Int))).getD 0 < assetPrio y)
          && (x :: xs).all fun b => decide (assetPrio b ≤ assetPrio y))
        = (x :: xs).all fun b => decide (assetPrio b ≤ assetPrio y)
      rw [decide_eq_true (show (dictGet p ([] : List (String × Int))).getD 0 < assetPrio y by
        have := assetPrio_pos y
        simp only [dictGet, Option.getD_none]
        omega), Bool.true_and]
    rw [hcongr]

/-- Claim C5 (witness): the general first-max rule applied at
`linux-x86_64` and the two-asset gnu/musl list. -/
theorem linux_variant_priority_first_max_witness :
    isLinuxPlat "linux-x86_64" = true
    ∧ dictGet "linux-x86_64" (selectPlatforms [gnuAsset, muslAsset])
        = (firstMaxAsset ([gnuAsset, muslAsset].filter
            (fun a => decide (detect_platform a.name = some "linux-x86_64")))).map assetInfoOf :=
  ⟨rfl, linux_variant_priority_first_max.1 [gnuAsset, muslAsset] "linux-x86_64" rfl⟩

/-- Claim C6: for every asset list and non-Linux platform id, the selector's
binding is that of the last asset in arrival order classifying to that
platform — later matches overwrite unconditionally. -/
theorem nonlinux_last_write_wins (assets : List Asset) (p : String)
    (hp : isLinuxPlat p = false) :
    dictGet p (selectPlatforms assets)
      = ((assets.filter (fun a => decide (detect_platform a.name = some p))).getLast?).map
          assetInfoOf := by
  have h := selectLoop_nonlinux_proj p hp assets [] []
  unfold selectPlatforms
  rw [h, lastFold_eq_getLast]
  cases (assets.filter (fun a => decide (detect_platform a.name = some p))).getLast? <;> rfl

/-- Two assets both classifying to `windows-x86_64`, for the C6 witness. -/
def winFirst : Asset :=
  { name := "tool-win64.zip", browser_download_url := "https://example.com/w1.zip", size := 1 }

/-- Second `windows-x86_64` asset; see `winFirst`. -/
def winSecond : Asset :=
  { name := "tool2-win64.zip", browser_download_url := "https://example.com/w2.zip", size := 2 }

/-- Claim C6 (witness): with two `windows-x86_64` assets the selector keeps
the later one. -/
theorem nonlinux_last_write_wins_witness :
    isLinuxPlat "windows-x86_64" = false
    ∧ dictGet "windows-x86_64" (selectPlatforms [winFirst, winSecond])
        = (([winFirst, winSecond].filter
            (fun a => decide (detect_platform a.name = some "windows-x86_64"))).getLast?).map
            assetInfoOf :=
  ⟨rfl, nonlinux_last_write_wins [winFirst, winSecond] "windows-x86_64" rfl⟩

/-! ### Claim C9: non-positive sizes -/

/-- A platform binding whose `size` field is an `isinstance(int)` value `≤ 0`
(the condition the validator's size check reports as an error). -/
def bindingBadSize : Json → Bool
  | .obj kvs =>
      match jLookup "size" kvs with
      | some v => isIntLike v && decide (pyIntVal v ≤ 0)
      | none => false
  | _ => false

/-- A package record one of whose platform bindings has a non-positive
integer size. -/
def pkgHasBadSize : Json → Bool
  | .obj kvs =>
      match jLookup "platforms" kvs with
      | some (.obj ps) => ps.any (fun kv => bindingBadSize kv.2)
      | _ => false
  | _ => false

/-- A manifest (array form) containing a package with a non-positive-size
binding. -/
def manifestHasBadSize : Json → Bool
  | .arr pkgs => pkgs.any pkgHasBadSize
  | _ => false

/-- A package whose single binding has `size: 0`. -/
def badSizePkg : Json :=
  .obj [("name", .str "bad"), ("description", .str ""),
        ("repo", .str "https://github.com/o/bad"),
        ("platforms", .obj [("linux-x86_64",
          .obj [("url", .str "https://example.com/x"), ("size", .num 0)])])]

/-- No size error occurs in a list of findings. -/
def NoSizeErr (l : List Finding) : Prop :=
  ∀ pkgId pid, Finding.invalidSize pkgId pid ∉ l

/-- `st2` extends `st`: findings are only appended, and the appended warnings
never include a size error (the size check only ever appends to `errors`). -/
def StExt (st st2 : VState) : Prop :=
  (∃ d, st2.errors = st.errors ++ d)
  ∧ (∃ w, st2.warnings = st.warnings ++ w ∧ NoSizeErr w)

theorem stExt_refl (st : VState) : StExt st st :=
  ⟨⟨[], (List.append_nil _).symm⟩,
   ⟨[], (List.append_nil _).symm, fun _ _ => List.not_mem_nil _⟩⟩

theorem stExt_trans {s1 s2 s3 : VState} (h1 : StExt s1 s2) (h2 : StExt s2 s3) :
    StExt s1 s3 := by
  obtain ⟨⟨d1, he1⟩, ⟨w1, hw1, hn1⟩⟩ := h1
  obtain ⟨⟨d2, he2⟩, ⟨w2, hw2, hn2⟩⟩ := h2
  refine ⟨⟨d1 ++ d2, by rw [he2, he1, List.append_assoc]⟩,
          ⟨w1 ++ w2, by rw [hw2, hw1, List.append_assoc], ?_⟩⟩
  intro pkgId pid h
  rcases List.mem_append.mp h with h | h
  · exact hn1 pkgId pid h
  · exact hn2 pkgId pid h

theorem stExt_addErr (st : VState) (f : Finding) : StExt st (addErr st f) :=
  ⟨⟨[f], rfl⟩, ⟨[], (List.append_nil _).symm, fun _ _ => List.not_mem_nil _⟩⟩

theorem stExt_addWarn (st : VState) (f : Finding)
    (hf : ∀ pkgId pid, f ≠ Finding.invalidSize pkgId pid) : StExt st (addWarn st f) := by
  refine ⟨⟨[], (List.append_nil _).symm⟩, ⟨[f], rfl, ?_⟩⟩
  intro pkgId pid h
  exact hf pkgId pid (List.mem_singleton.mp h).symm

theorem mem_errors_of_stExt {st st2 : VState} (h : StExt st st2) {f : Finding}
    (hf : f ∈ st.errors) : f ∈ st2.errors := by
  obtain ⟨⟨d, hd⟩, -⟩ := h
  rw [hd]
  exact List.mem_append.mpr (Or.inl hf)

theorem vRequired_ext (pkgId : Json) (kvs : List (String × Json)) :
    ∀ (fs : List String) (st : VState), StExt st (vRequired pkgId kvs st fs) := by
  intro fs
  induction fs with
  | nil => intro st; exact stExt_refl st
  | cons f rest ih =>
      intro st
      rw [vRequired]
      by_cases hf : (jLookup f kvs).isSome = true
      · rw [if_pos hf]
        exact ih st
      · rw [if_neg hf]
        exact stExt_trans (stExt_addErr st _) (ih _)

theorem vPlatRequired_ext (pkgId : Json) (pid : String) (kvs : List (String × Json)) :
    ∀ (fs : List String) (st : VState), StExt st (vPlatRequired pkgId pid kvs st fs) := by
  intro fs
  induction fs with
  | nil => intro st; exact stExt_refl st
  | cons f rest ih =>
      intro st
      rw [vPlatRequired]
      by_cases hf : (jLookup f kvs).isSome = true
      · rw [if_pos hf]
        exact ih st
      · rw [if_neg hf]
        exact stExt_trans (stExt_addErr st _) (ih _)

theorem vPlatUrl_ext (st : VState) (pkgId : Json) (pid : String)
    (kvs : List (String × Json)) : StExt st (vPlatUrl st pkgId pid kvs) := by
  unfold vPlatUrl
  split
  · split
    · exact stExt_refl st
    · exact stExt_addWarn st _ (fun _ _ h => Finding.noConfusion h)
  · exact stExt_addErr st _
  · exact stExt_refl st

theorem vPlatSize_ext (st : VState) (pkgId : Json) (pid : String)
    (kvs : List (String × Json)) : StExt st (vPlatSize st pkgId pid kvs) := by
  unfold vPlatSize
  split
  · split
    · exact stExt_addErr st _
    · exact stExt_refl st
  · exact stExt_refl st

theorem vPlatChecksum_ext (st : VState) (pkgId : Json) (pid : String)
    (kvs : List (String × Json)) : StExt st (vPlatChecksum st pkgId pid kvs) := by
  unfold vPlatChecksum
  split
  · exact stExt_refl st
  · exact stExt_addWarn st _ (fun _ _ h => Finding.noConfusion h)
  · exact stExt_refl st

theorem vPlatform_ext (st : VState) (pkgId : Json) (pid : String) (p : Json) :
    StExt st (vPlatform st pkgId pid p) := by
  unfold vPlatform
  split
  · exact stExt_trans (vPlatRequired_ext pkgId pid _ _ st)
      (stExt_trans (vPlatUrl_ext _ pkgId pid _)
        (stExt_trans (vPlatSize_ext _ pkgId pid _) (vPlatChecksum_ext _ pkgId pid _)))
  · exact stExt_addErr st _

theorem vPlatformsLoop_ext (pkgId : Json) :
    ∀ (kvs : List (String × Json)) (st : VState), StExt st (vPlatformsLoop pkgId st kvs) := by
  intro kvs
  induction kvs with
  | nil => intro st; exact stExt_refl st
  | cons kv rest ih =>
      intro st
      rw [vPlatformsLoop]
      exact stExt_trans (vPlatform_ext st pkgId kv.1 kv.2) (ih _)

theorem vPlatforms_ext (st : VState) (pkgId : Json) (ps : Json) :
    StExt st (vPlatforms st pkgId ps) := by
  unfold vPlatforms
  split
  · split
    · exact stExt_addErr st _
    · exact vPlatformsLoop_ext pkgId _ st
  · exact stExt_addErr st _

theorem vPkgName_ext (st : VState) (pkgId : Json) (kvs : List (String × Json)) :
    StExt st (vPkgName st pkgId kvs) := by
  unfold vPkgName
  split
  · split
    · exact stExt_refl st
    · exact stExt_addErr st _
  · exact stExt_refl st

theorem vPkgDescription_ext (st : VState) (pkgId : Json) (kvs : List (String × Json)) :
    StExt st (vPkgDescription st pkgId kvs) := by
  unfold vPkgDescription
  split
  · split
    · exact stExt_refl st
    · exact stExt_addErr st _
  · exact stExt_refl st

theorem vPkgRepo_ext (st : VState) (pkgId : Json) (kvs : List (String × Json)) :
    StExt st (vPkgRepo st pkgId kvs) := by
  unfold vPkgRepo
  split
  · split
    · exact stExt_refl st
    · exact stExt_addWarn st _ (fun _ _ h => Finding.noConfusion h)
  · exact stExt_addErr st _
  · exact stExt_refl st

theorem vPkgHomepage_ext (st : VState) (pkgId : Json) (kvs : List (String × Json)) :
    StExt st (vPkgHomepage st pkgId kvs) := by
  unfold vPkgHomepage
  split
  · split
    · split
      · exact stExt_refl st
      · exact stExt_addErr st _
    · exact stExt_refl st
  · exact stExt_refl st

theorem vPkgLicense_ext (st : VState) (pkgId : Json) (kvs : List (String × Json)) :
    StExt st (vPkgLicense st pkgId kvs) := by
  unfold vPkgLicense
  split
  · split
    · split
      · exact stExt_refl st
      · exact stExt_addWarn st _ (fun _ _ h => Finding.noConfusion h)
    · exact stExt_refl st
  · exact stExt_refl st

theorem vPkgPlatforms_ext (st : VState) (pkgId : Json) (kvs : List (String × Json)) :
    StExt st (vPkgPlatforms st pkgId kvs) := by
  unfold vPkgPlatforms
  split
  · exact vPlatforms_ext st pkgId _
  · exact stExt_addErr st _

theorem vPackageObj_ext (st : VState) (idx : Nat) (kvs : List (String × Json)) :
    StExt st (vPackageObj st idx kvs) := by
  unfold vPackageObj
  exact stExt_trans (vRequired_ext _ kvs _ st)
    (stExt_trans (vPkgName_ext _ _ kvs)
      (stExt_trans (vPkgDescription_ext _ _ kvs)
        (stExt_trans (vPkgRepo_ext _ _ kvs)
          (stExt_trans (vPkgHomepage_ext _ _ kvs)
            (stExt_trans (vPkgLicense_ext _ _ kvs) (vPkgPlatforms_ext _ _ kvs))))))

theorem vStructure_ext (st : VState) (doc : Json) : StExt st (vStructure st doc) := by
  unfold vStructure
  split
  · split
    · exact stExt_addWarn st _ (fun _ _ h => Finding.noConfusion h)
    · exact stExt_refl st
  · exact stExt_addErr st _

theorem foldPackages_ext : ∀ (items : List Json) (st : VState) (idx : Nat) (st2 : VState),
    foldPackages st idx items = .ok st2 → StExt st st2 := by
  intro items
  induction items with
  | nil =>
      intro st idx st2 h
      injection h with h
      rw [← h]
      exact stExt_refl st
  | cons pkg rest ih =>
      intro st idx st2 h
      rw [foldPackages] at h
      rcases hv : vPackage st idx pkg with e | s1
      · rw [hv] at h
        cases h
      · rw [hv] at h
        have h1 : StExt st s1 := by
          unfold vPackage at hv
          split at hv
          · injection hv with hv
            rw [← hv]
            exact vPackageObj_ext st idx _
          · cases hv
        exact stExt_trans h1 (ih s1 (idx + 1) st2 h)

theorem foldl_dup_ext (l : List Json) :
    ∀ st : VState, StExt st (l.foldl (fun s n => addErr s (.duplicateName n)) st) := by
  induction l with
  | nil => intro st; exact stExt_refl st
  | cons x rest ih =>
      intro st
      rw [List.foldl_cons]
      exact stExt_trans (stExt_addErr st _) (ih _)

theorem vCheckDuplicates_ext (st : VState) (doc : Json) (st2 : VState)
    (h : vCheckDuplicates st doc = .ok st2) : StExt st st2 := by
  unfold vCheckDuplicates at h
  split at h
  · cases h
  · split at h
    · cases h
    · dsimp only at h
      split at h
      · cases h
      · injection h with h
        rw [← h]
        exact foldl_dup_ext _ st

theorem bindingBadSize_elim {pd : Json} (h : bindingBadSize pd = true) :
    ∃ kvs sz, pd = .obj kvs ∧ jLookup "size" kvs = some sz
      ∧ isIntLike sz = true ∧ pyIntVal sz ≤ 0 := by
  cases pd with
  | null => exact Bool.noConfusion h
  | bool b => exact Bool.noConfusion h
  | num n => exact Bool.noConfusion h
  | str s => exact Bool.noConfusion h
  | arr xs => exact Bool.noConfusion h
  | obj kvs =>
      have hm : (match jLookup "size" kvs with
        | some v => isIntLike v && decide (pyIntVal v ≤ 0)
        | none => false) = true := h
      rcases hsz : jLookup "size" kvs with _ | sz
      · rw [hsz] at hm
        exact Bool.noConfusion hm
      · rw [hsz] at hm
        have h2 : (isIntLike sz && decide (pyIntVal sz ≤ 0)) = true := hm
        rw [Bool.and_eq_true] at h2
        exact ⟨kvs, sz, rfl, hsz, h2.1, of_decide_eq_true h2.2⟩

theorem pkgHasBadSize_elim {pkg : Json} (h : pkgHasBadSize pkg = true) :
    ∃ kvs ps pid pd, pkg = .obj kvs ∧ jLookup "platforms" kvs = some (.obj ps)
      ∧ (pid, pd) ∈ ps ∧ bindingBadSize pd = true := by
  cases pkg with
  | null => exact Bool.noConfusion h
  | bool b => exact Bool.noConfusion h
  | num n => exact Bool.noConfusion h
  | str s => exact Bool.noConfusion h
  | arr xs => exact Bool.noConfusion h
  | obj kvs =>
      have hm : (match jLookup "platforms" kvs with
        | some (.obj ps) => ps.any (fun kv => bindingBadSize kv.2)
        | _ => false) = true := h
      rcases hps : jLookup "platforms" kvs with _ | v
      · rw [hps] at hm
        exact Bool.noConfusion hm
      · rw [hps] at hm
        cases v with
        | null => exact Bool.noConfusion hm
        | bool b => exact Bool.noConfusion hm
        | num n => exact Bool.noConfusion hm
        | str s => exact Bool.noConfusion hm
        | arr xs => exact Bool.noConfusion hm
        | obj ps =>
            have h2 : ps.any (fun kv => bindingBadSize kv.2) = true := hm
            obtain ⟨kv, hkvmem, hbad2⟩ := List.any_eq_true.mp h2
            exact ⟨kvs, ps, kv.1, kv.2, rfl, hps, hkvmem, hbad2⟩

theorem vPlatSize_bad (st : VState) (pkgId : Json) (pid : String)
    (kvs : List (String × Json)) (sz : Json) (hsz : jLookup "size" kvs = some sz)
    (hint : isIntLike sz = true) (hle : pyIntVal sz ≤ 0) :
    Finding.invalidSize pkgId pid ∈ (vPlatSize st pkgId pid kvs).errors := by
  unfold vPlatSize
  rw [hsz]
  show Finding.invalidSize pkgId pid ∈
    (if (!isIntLike sz || decide (pyIntVal sz ≤ 0)) = true
     then addErr st (.invalidSize pkgId pid) else st).errors
  have hc : (!isIntLike sz || decide (pyIntVal sz ≤ 0)) = true := by
    rw [hint, Bool.not_true, Bool.false_or]
    exact decide_eq_true hle
  rw [hc, if_pos rfl]
  exact List.mem_append.mpr (Or.inr (List.mem_singleton.mpr rfl))

theorem vPlatform_bad (st : VState) (pkgId : Json) (pid : String)
    (kvs : List (String × Json)) (sz : Json) (hsz : jLookup "size" kvs = some sz)
    (hint : isIntLike sz = true) (hle : pyIntVal sz ≤ 0) :
    Finding.invalidSize pkgId pid ∈ (vPlatform st pkgId pid (.obj kvs)).errors := by
  show Finding.invalidSize pkgId pid ∈ (vPlatChecksum
    (vPlatSize (vPlatUrl (vPlatRequired pkgId pid kvs st requiredPlatformFields)
      pkgId pid kvs) pkgId pid kvs) pkgId pid kvs).errors
  exact mem_errors_of_stExt (vPlatChecksum_ext _ pkgId pid kvs)
    (vPlatSize_bad _ pkgId pid kvs sz hsz hint hle)

theorem vPlatformsLoop_bad (pkgId : Json) :
    ∀ (kvs : List (String × Json)) (st : VState) (pid : String) (pd : Json),
      (pid, pd) ∈ kvs → bindingBadSize pd = true →
      Finding.invalidSize pkgId pid ∈ (vPlatformsLoop pkgId st kvs).errors := by
  intro kvs
  induction kvs with
  | nil =>
      intro st pid pd hmem
      exact absurd hmem (List.not_mem_nil _)
  | cons kv rest ih =>
      intro st pid pd hmem hbad
      rw [vPlatformsLoop]
      rcases List.mem_cons.mp hmem with heq | hmem2
      · obtain ⟨k1, v1⟩ := kv
        injection heq with h1 h2
        subst h1
        subst h2
        obtain ⟨pkv, sz, rfl, hsz, hint, hle⟩ := bindingBadSize_elim hbad
        exact mem_errors_of_stExt (vPlatformsLoop_ext pkgId rest _)
          (vPlatform_bad st pkgId pid pkv sz hsz hint hle)
      · exact ih _ pid pd hmem2 hbad

theorem vPlatforms_obj_nonempty (st : VState) (pkgId : Json) (ps : List (String × Json))
    (hne : ps ≠ []) : vPlatforms st pkgId (.obj ps) = vPlatformsLoop pkgId st ps := by
  unfold vPlatforms
  show (if ps.isEmpty = true then addErr st (.noPlatforms pkgId)
        else vPlatformsLoop pkgId st ps) = vPlatformsLoop pkgId st ps
  rw [if_neg (by
    cases ps with
    | nil => exact absurd rfl hne
    | cons q qs => simp)]

theorem vPkgPlatforms_bad (st : VState) (pkgId : Json) (kvs ps : List (String × Json))
    (pid : String) (pd : Json) (hps : jLookup "platforms" kvs = some (.obj ps))
    (hmem : (pid, pd) ∈ ps) (hbad : bindingBadSize pd = true) :
    Finding.invalidSize pkgId pid ∈ (vPkgPlatforms st pkgId kvs).errors := by
  unfold vPkgPlatforms
  rw [hps]
  show Finding.invalidSize pkgId pid ∈ (vPlatforms st pkgId (.obj ps)).errors
  rw [vPlatforms_obj_nonempty st pkgId ps
    (fun hcon => absurd (hcon ▸ hmem) (List.not_mem_nil _))]
  exact vPlatformsLoop_bad pkgId ps st pid pd hmem hbad

theorem vPackageObj_bad (st : VState) (idx : Nat) (kvs : List (String × Json))
    (ps : List (String × Json)) (pid : String) (pd : Json)
    (hps : jLookup "platforms" kvs = some (.obj ps))
    (hmem : (pid, pd) ∈ ps) (hbad : bindingBadSize pd = true) :
    ∃ pkgId, Finding.invalidSize pkgId pid ∈ (vPackageObj st idx kvs).errors := by
  refine ⟨pkgIdOf idx kvs, ?_⟩
  unfold vPackageObj
  exact vPkgPlatforms_bad _ (pkgIdOf idx kvs) kvs ps pid pd hps hmem hbad

theorem foldPackages_bad : ∀ (items : List Json) (st : VState) (idx : Nat) (st2 : VState),
    foldPackages st idx items = .ok st2 →
    ∀ pkg ∈ items, pkgHasBadSize pkg = true →
    ∃ pkgId pid, Finding.invalidSize pkgId pid ∈ st2.errors := by
  intro items
  induction items with
  | nil =>
      intro st idx st2 _ pkg hmem
      exact absurd hmem (List.not_mem_nil _)
  | cons x rest ih =>
      intro st idx st2 h pkg hmem hbad
      rw [foldPackages] at h
      rcases hv : vPackage st idx x with e | s1
      · rw [hv] at h
        cases h
      · rw [hv] at h
        rcases List.mem_cons.mp hmem with rfl | hmem2
        · obtain ⟨kvs, ps, pid, pd, rfl, hps, hpmem, hbind⟩ := pkgHasBadSize_elim hbad
          have hs1 : s1 = vPackageObj st idx kvs := by
            unfold vPackage at hv
            injection hv with hv
            exact hv.symm
          obtain ⟨pkgId, hmem3⟩ := vPackageObj_bad st idx kvs ps pid pd hps hpmem hbind
          refine ⟨pkgId, pid, mem_errors_of_stExt (foldPackages_ext rest s1 (idx + 1) st2 h) ?_⟩
          rw [hs1]
          exact hmem3
        · exact ih s1 (idx + 1) st2 h pkg hmem2 hbad

/-- Claim C9 (counterexample): a manifest array that does contain a binding
with `size: 0` but on which `validate()` raises `AttributeError` (because an
earlier element is not a dict) — so the size error is never recorded and no
boolean is returned. -/
theorem bad_size_manifest_can_crash_validator :
    manifestHasBadSize (.arr [.str "x", badSizePkg]) = true
    ∧ validateDoc (.arr [.str "x", badSizePkg]) = .error .attributeError :=
  ⟨rfl, rfl⟩

/-- Claim C9 (amended): whenever `validate()` terminates normally on a
manifest containing a package binding whose `size` is an integer `≤ 0`, the
result is Invalid (`False`), a size error for some binding is recorded in the
error list, and no size finding ever appears among the warnings. -/
theorem nonpositive_size_yields_error_invalid (doc : Json) (b : Bool) (st : VState)
    (hok : validateDoc doc = .ok (b, st)) (hbad : manifestHasBadSize doc = true) :
    b = false
    ∧ (∃ pkgId pid, Finding.invalidSize pkgId pid ∈ st.errors)
    ∧ (∀ pkgId pid, Finding.invalidSize pkgId pid ∉ st.warnings) := by
  cases doc with
  | null => exact Bool.noConfusion hbad
  | bool c => exact Bool.noConfusion hbad
  | num n => exact Bool.noConfusion hbad
  | str s => exact Bool.noConfusion hbad
  | obj kvs => exact Bool.noConfusion hbad
  | arr pkgs =>
      obtain ⟨pkg, hpkgmem, hpbad⟩ := List.any_eq_true.mp (by
        unfold manifestHasBadSize at hbad
        exact hbad)
      unfold validateDoc at hok
      simp only [pyIterItems] at hok
      rcases hfold : foldPackages (vStructure { errors := [], warnings := [] } (.arr pkgs))
          0 pkgs with e | st2
      · rw [hfold] at hok
        cases hok
      · rw [hfold] at hok
        have hok2 : (match vCheckDuplicates st2 (Json.arr pkgs) with
          | .error e => (Except.error e : Except PyErr (Bool × VState))
          | .ok st3 => .ok (st3.errors.isEmpty, st3)) = Except.ok (b, st) := hok
        rcases hdup : vCheckDuplicates st2 (.arr pkgs) with e | st3
        · rw [hdup] at hok2
          cases hok2
        · rw [hdup] at hok2
          injection hok2 with hok3
          injection hok3 with hb hst
          obtain ⟨pkgId, pid, hmem2⟩ := foldPackages_bad pkgs _ 0 st2 hfold pkg hpkgmem hpbad
          have hmem3 : Finding.invalidSize pkgId pid ∈ st3.errors :=
            mem_errors_of_stExt (vCheckDuplicates_ext st2 _ st3 hdup) hmem2
          have hext : StExt { errors := [], warnings := [] } st3 :=
            stExt_trans (vStructure_ext { errors := [], warnings := [] } (.arr pkgs))
              (stExt_trans (foldPackages_ext pkgs _ 0 st2 hfold)
                (vCheckDuplicates_ext st2 _ st3 hdup))
          refine ⟨?_, ⟨pkgId, pid, by rw [← hst]; exact hmem3⟩, ?_⟩
          · rw [← hb]
            cases he : st3.errors with
            | nil =>
                rw [he] at hmem3
                exact absurd hmem3 (List.not_mem_nil _)
            | cons f fs => rfl
          · intro pkgId2 pid2 hwm
            obtain ⟨-, ⟨w, hw, hn⟩⟩ := hext
            rw [← hst, hw] at hwm
            exact hn pkgId2 pid2 (by simpa using hwm)

/-- Claim C9 (witness for the amended theorem): on the one-package manifest
with `size: 0` the validator terminates with exactly the size error and the
Invalid outcome. -/
theorem nonpositive_size_yields_error_invalid_witness :
    false = false
    ∧ (∃ pkgId pid, Finding.invalidSize pkgId pid
        ∈ ({ errors := [.invalidSize (.str "bad") "linux-x86_64"], warnings := [] } : VState).errors)
    ∧ (∀ pkgId pid, Finding.invalidSize pkgId pid
        ∉ ({ errors := [.invalidSize (.str "bad") "linux-x86_64"], warnings := [] } : VState).warnings) :=
  nonpositive_size_yields_error_invalid (.arr [badSizePkg]) false
    { errors := [.invalidSize (.str "bad") "linux-x86_64"], warnings := [] } rfl rfl

end WenpmBucket
